import Mathlib

/-!
Verification of the FileTransformer column-transform engine
(`manual_transform.py`) against its specification.

The tabular data model (pandas `DataFrame`) is embedded shallowly:
a row-set is a list of column names together with rows of optional cells
(`none` models a null / NaN cell).  Each transformation rule of
`apply_enrollment_transforms` / `apply_usage_transforms` is translated
directly from the source: a per-column pass that either rewrites only the
non-null cells (`notna` mask) or, for date formatting, rewrites the whole
column.  The post-serialization cleanup `find_and_replace_quotes` is
modelled as the pure text substitution it performs.
-/

set_option autoImplicit false

namespace FileTransformer

/-- Cell values of the tabular model: text, integers (as read from a
numeric spreadsheet column), or timestamps.  A null / NaN cell is
represented by `Option.none` around a `Value`. -/
inductive Value where
  | str (s : String)
  | int (n : Int)
  | date (y m d : Nat)
deriving DecidableEq, Repr

/-- Left fill with zeros, translated from Python `str.zfill(width)`:
if the string is at least `width` characters it is returned unchanged,
otherwise ASCII zeros are inserted, after the sign when the first
character is `+` or `-`. -/
def zfill (width : Nat) (s : String) : String :=
  let l := s.toList
  if width ≤ l.length then s
  else
    match l with
    | c :: rest =>
      if c = '+' ∨ c = '-' then
        (c :: (List.replicate (width - l.length) '0' ++ rest)).asString
      else
        (List.replicate (width - l.length) '0' ++ l).asString
    | [] => (List.replicate width '0').asString

/-- Zero-pad a natural number to a fixed number of digits, as `strftime`
field formatting does for `%Y`, `%m` and `%d`. -/
def padNum (width n : Nat) : String :=
  zfill width (toString n)

/-- Render a calendar date in the fixed `YYYY-MM-DD` pattern of
`strftime('%Y-%m-%d')`. -/
def formatDate (y m d : Nat) : String :=
  padNum 4 y ++ "-" ++ padNum 2 m ++ "-" ++ padNum 2 d

/-- Text coercion of a cell value, modelling Python `str(...)` as used by
`astype(str)`: text is unchanged, integers render in decimal with a
leading `-` when negative, and timestamps render as midnight of their
calendar date. -/
def Value.toStr : Value → String
  | .str s => s
  | .int n => toString n
  | .date y m d => formatDate y m d ++ " 00:00:00"

/-- Gregorian leap-year test. -/
def isLeapYear (y : Nat) : Bool :=
  (y % 4 = 0 && y % 100 ≠ 0) || y % 400 = 0

/-- Number of days in a month of a given year. -/
def daysInMonth (y m : Nat) : Nat :=
  if m = 2 then (if isLeapYear y then 29 else 28)
  else if m = 4 ∨ m = 6 ∨ m = 9 ∨ m = 11 then 30
  else 31

/-- Read a nonempty all-digit character list as a natural number. -/
def parseNatDigits : List Char → Option Nat
  | [] => none
  | l => l.foldl (fun acc c =>
      acc.bind (fun n => if c.isDigit then some (n * 10 + (c.toNat - 48)) else none))
      (some 0)

/-- Split a character list at every occurrence of the separator
character, like Python `str.split(sep)` for a single-character `sep`. -/
def splitOnChar (sep : Char) : List Char → List (List Char)
  | [] => [[]]
  | c :: rest =>
    let r := splitOnChar sep rest
    if c = sep then [] :: r
    else
      match r with
      | [] => [[c]]
      | g :: gs => (c :: g) :: gs

/-- Calendar-date parsing of a text cell.  Models `pd.to_datetime`
restricted to the dash-separated numeric `Y-M-D` form exercised by this
program's date columns (month and day validated against the calendar,
year restricted to the interior of the pandas `Timestamp` range); every
other text, e.g. `"N/A"`, fails to parse, which under
`errors='coerce'` becomes `NaT`. -/
def parseDateString (s : String) : Option (Nat × Nat × Nat) :=
  match (splitOnChar '-' s.toList).map parseNatDigits with
  | [some y, some m, some d] =>
    if 1678 ≤ y ∧ y ≤ 2261 ∧ 1 ≤ m ∧ m ≤ 12 ∧ 1 ≤ d ∧ d ≤ daysInMonth y m then
      some (y, m, d)
    else none
  | _ => none

/-- Best-effort date parsing of a cell value, modelling
`pd.to_datetime(_, errors='coerce')` on the value forms reaching the
date columns: timestamps pass through, text is parsed with
`parseDateString`.  (Integer cells, which pandas would read as epoch
offsets, are outside the modelled scope and coerce to `NaT`.) -/
def parseDate : Value → Option (Nat × Nat × Nat)
  | .date y m d =>
    if 1678 ≤ y ∧ y ≤ 2261 ∧ 1 ≤ m ∧ m ≤ 12 ∧ 1 ≤ d ∧ d ≤ daysInMonth y m then
      some (y, m, d)
    else none
  | .str s => parseDateString s
  | .int _ => none

/-- Portion of the text before the first `.`, i.e. Python
`s.split('.')[0]`. -/
def takeBeforeDot (s : String) : String :=
  (s.toList.takeWhile (fun c => c ≠ '.')).asString

/-- QuoteWrap rule on one non-null cell: coerce to text and surround
with double quotes (`f'"{x}"'` in the source). -/
def quoteWrapCell (v : Value) : Value :=
  .str ("\"" ++ v.toStr ++ "\"")

/-- CustomWrap rule on one non-null cell: coerce to text and surround
with a single quote inside double quotes (`f'"\'{x}\'"'` in the
source). -/
def customWrapCell (v : Value) : Value :=
  .str ("\"'" ++ v.toStr ++ "'\"")

/-- ZeroPad rule on one non-null cell: coerce to text, keep the part
before the first `.`, and zero-fill to the given width
(`astype(str).str.split('.').str[0].str.zfill(length)`). -/
def zeroPadCell (width : Nat) (v : Value) : Value :=
  .str (zfill width (takeBeforeDot v.toStr))

/-- StripSeparator rule on one non-null cell: coerce to text and delete
every comma (`astype(str).str.replace(',', '')`). -/
def stripCommaCell (v : Value) : Value :=
  .str ((v.toStr.toList.filter (fun c => c ≠ ',')).asString)

/-- DateFormat rule on one whole-column cell (the source applies
`pd.to_datetime(df[col], errors='coerce').dt.strftime('%Y-%m-%d')` to
the entire column, without a `notna` mask): a null cell stays `NaT`
hence null, a parse failure becomes null, a parsed date re-renders as
`YYYY-MM-DD` text. -/
def dateFormatCellAll (c : Option Value) : Option Value :=
  (c.bind parseDate).map (fun p => Value.str (formatDate p.1 p.2.1 p.2.2))

/-- The tabular row-set: ordered column names and rows of optional
cells, each row aligned positionally with `cols`.  `none` models a
null / NaN cell. -/
structure DataFrame where
  cols : List String
  rows : List (List (Option Value))
deriving DecidableEq, Repr

/-- Index of the first column with the given name, `none` when the name
is absent — the `col in df.columns` membership test together with the
positional column access. -/
def findIdxEq : List String → String → Option Nat
  | [], _ => none
  | c :: cs, col => if c = col then some 0 else (findIdxEq cs col).map (· + 1)

/-- Rewrite the cell at one position of a row, leaving the rest of the
row unchanged. -/
def modifyAt {α : Type} (f : α → α) : Nat → List α → List α
  | _, [] => []
  | 0, c :: r => f c :: r
  | n + 1, c :: r => c :: modifyAt f n r

/-- Apply a per-cell rewrite to every non-null cell of one column — the
`df.loc[mask, col] = ...` pattern with `mask = df[col].notna()`.  When
the column is absent the row-set is returned unchanged. -/
def mapColMasked (df : DataFrame) (col : String) (f : Value → Value) : DataFrame :=
  match findIdxEq df.cols col with
  | none => df
  | some j => ⟨df.cols, df.rows.map (modifyAt (fun c => c.map f) j)⟩

/-- Apply a whole-column rewrite (null cells included) to one column —
the unmasked `df[col] = ...` pattern used by date formatting.  When the
column is absent the row-set is returned unchanged. -/
def mapColAll (df : DataFrame) (col : String) (f : Option Value → Option Value) : DataFrame :=
  match findIdxEq df.cols col with
  | none => df
  | some j => ⟨df.cols, df.rows.map (modifyAt f j)⟩

/-- Cell of row `r` in the named column: `none` when the column or row
is absent or the cell is null. -/
def getCell (df : DataFrame) (r : Nat) (col : String) : Option Value :=
  match findIdxEq df.cols col with
  | none => none
  | some j =>
    match df.rows.get? r with
    | none => none
    | some row => (row.get? j).join

/-- The Enrollment rule set, translated rule by rule from
`apply_enrollment_transforms`: double-quote wrapping, custom wrapping of
`TX_SERV_SUPP`, date formatting, zero padding, comma removal. -/
def apply_enrollment_transforms (df : DataFrame) : DataFrame :=
  let double_quote_cols := ["CUSTOMER_NAME", "CUSTOMER_SERVICE_ADDRESS",
    "CUSTOMER_SERVICE_CITY_STATE_ZIP", "TX_TAR_SHORT_DESC", "TX_TAR_SCH_DESC"]
  let df1 := double_quote_cols.foldl (fun d c => mapColMasked d c quoteWrapCell) df
  let df2 := mapColMasked df1 "TX_SERV_SUPP" customWrapCell
  let date_cols := ["DT_EFF", "CUST_ENR_START_DATE", "CUST_EDI_DROP_DATE", "LAST_UPDATE"]
  let df3 := date_cols.foldl (fun d c => mapColAll d c dateFormatCellAll) df2
  let padding_cols : List (String × Nat) :=
    [("CITY_GATE", 4), ("KY_MTR_BILL_GRP", 2), ("CD_SERV_SUPP", 4)]
  let df4 := padding_cols.foldl (fun d p => mapColMasked d p.1 (zeroPadCell p.2)) df3
  let comma_removal_cols := ["TOT_ANNUAL_USAGE", "CUST_PEAK_DAY",
    "CUST_BASE_LOAD", "CUST_THERMAL_RESPONSE"]
  comma_removal_cols.foldl (fun d c => mapColMasked d c stripCommaCell) df4

/-- The Usage rule set, translated rule by rule from
`apply_usage_transforms`. -/
def apply_usage_transforms (df : DataFrame) : DataFrame :=
  let double_quote_cols := ["CUST_NAME", "CUST_SERV_ADDR",
    "CUST_SERV_CITY_ST_ZIP", "CUST_POOL_ID"]
  let df1 := double_quote_cols.foldl (fun d c => mapColMasked d c quoteWrapCell) df
  let date_cols := ["DT_LST_BLLD", "DT_RDG_FROM", "DT_RDG_TO", "DT_ENTERED"]
  let df2 := date_cols.foldl (fun d c => mapColAll d c dateFormatCellAll) df1
  let df3 := mapColMasked df2 "KY_MTR_BILL_GRP" (zeroPadCell 2)
  let df4 := mapColMasked df3 "CITY_GATE" (zeroPadCell 4)
  let df5 := mapColMasked df4 "CD_BILL_PRCS_INSTR" (zeroPadCell 4)
  let df6 := mapColMasked df5 "CD_SERV_SUPP" (zeroPadCell 4)
  let comma_removal_cols := ["USAGE", "QY_BTU_FACTOR"]
  comma_removal_cols.foldl (fun d c => mapColMasked d c stripCommaCell) df6

/-- ASCII lowering of one character, as Python `str.lower` acts on the
filenames involved. -/
def charLower (c : Char) : Char :=
  if 'A' ≤ c ∧ c ≤ 'Z' then Char.ofNat (c.toNat + 32) else c

/-- Lower-case a string (`os.path.basename(input_file).lower()`). -/
def strLower (s : String) : String :=
  (s.toList.map charLower).asString

/-- Does the second list start with the first one? -/
def startsWithL : List Char → List Char → Bool
  | [], _ => true
  | _ :: _, [] => false
  | a :: as, b :: bs => a = b && startsWithL as bs

/-- Substring containment on character lists, the Python `pat in s`
test. -/
def containsL (pat : List Char) : List Char → Bool
  | [] => startsWithL pat []
  | c :: rest => startsWithL pat (c :: rest) || containsL pat rest

/-- Substring containment on strings. -/
def containsSub (s pat : String) : Bool :=
  containsL pat.toList s.toList

/-- Transformation core of `transform_excel_data`: dispatch on the
lower-cased file name — `'enrollment' in name` first, then
`'usage' in name` — and apply the selected rule set; `none` models the
`return False` of the unrecognized-category branch.  The spreadsheet
read and CSV write surrounding this dispatch are the opaque tabular I/O
boundary and are not modelled. -/
def transform_excel_data (fileName : String) (df : DataFrame) : Option DataFrame :=
  let file_name_lower := strLower fileName
  if containsSub file_name_lower "enrollment" then
    some (apply_enrollment_transforms df)
  else if containsSub file_name_lower "usage" then
    some (apply_usage_transforms df)
  else
    none

/-- Leftmost non-overlapping replacement of a pattern in a character
list, Python `str.replace` semantics for a nonempty pattern.  The fuel
argument (instantiated with the list's length, an upper bound on the
number of scanning steps) makes the recursion structural. -/
def replaceGo (pat rep : List Char) : Nat → List Char → List Char
  | _, [] => []
  | 0, s => s
  | fuel + 1, c :: rest =>
    if startsWithL pat (c :: rest) then
      rep ++ replaceGo pat rep fuel ((c :: rest).drop pat.length)
    else
      c :: replaceGo pat rep fuel rest

/-- Python `content.replace(pat, rep)` for a nonempty pattern (the one
call site uses the three-character pattern `\x22\x22\x22`). -/
def pyReplace (content pat rep : String) : String :=
  match pat.toList with
  | [] => content
  | p :: ps => (replaceGo (p :: ps) rep.toList content.toList.length content.toList).asString

/-- The triple double-quote pattern of the cleanup pass. -/
def tripleQuote : List Char := ['"', '"', '"']

/-- Replacement core of the cleanup pass on character lists. -/
def replaceTQ (l : List Char) : List Char :=
  replaceGo tripleQuote ['"'] l.length l

/-- Text-substitution core of `find_and_replace_quotes`: replace every
occurrence of three consecutive double quotes with a single double quote
(`content.replace('"""', '"')`).  The surrounding file read and write
are the I/O boundary and are not modelled. -/
def find_and_replace_quotes (content : String) : String :=
  pyReplace content "\"\"\"" "\""

/-- Zero-padding as the specification literally words it (for comparison
with the code's `zeroPadCell`): truncate at the first dot, then place
zeros at the very left until the text is `width` characters, never
truncating. -/
def claimZeroPadPlain (width : Nat) (s : String) : String :=
  let t := takeBeforeDot s
  if width ≤ t.toList.length then t
  else (List.replicate (width - t.toList.length) '0').asString ++ t

/-- Zero-padding as amended: truncate at the first dot, then fill with
zeros up to `width` characters, the zeros going after a leading `+` or
`-` sign and otherwise at the very left; text already at least `width`
characters long is left unchanged. -/
def claimZeroPadSigned (width : Nat) (s : String) : String :=
  let t := (takeBeforeDot s).toList
  if width ≤ t.length then t.asString
  else
    match t with
    | c :: rest =>
      if c = '+' ∨ c = '-' then
        (c :: (List.replicate (width - t.length) '0' ++ rest)).asString
      else (List.replicate (width - t.length) '0' ++ t).asString
    | [] => (List.replicate width '0').asString

/-! ### Basic lemmas about the column machinery -/

theorem findIdxEq_eq_none {cs : List String} {col : String} (h : col ∉ cs) :
    findIdxEq cs col = none := by
  induction cs with
  | nil => rfl
  | cons c cs ih =>
    simp only [List.mem_cons, not_or] at h
    simp [findIdxEq, Ne.symm h.1, ih h.2]

theorem findIdxEq_get {cs : List String} {col : String} {i : Nat}
    (h : findIdxEq cs col = some i) : cs.get? i = some col := by
  induction cs generalizing i with
  | nil => simp [findIdxEq] at h
  | cons c cs ih =>
    by_cases hc : c = col
    · simp [findIdxEq, hc] at h
      subst hc
      simp [← h]
    · simp [findIdxEq, hc] at h
      obtain ⟨i', hi', rfl⟩ := h
      simpa using ih hi'

theorem findIdxEq_ne {cs : List String} {c col : String} {i j : Nat}
    (hc : findIdxEq cs c = some i) (hcol : findIdxEq cs col = some j)
    (h : c ≠ col) : i ≠ j := by
  intro hij
  subst hij
  have h1 := findIdxEq_get hc
  have h2 := findIdxEq_get hcol
  rw [h1] at h2
  exact h (Option.some.inj h2)

theorem modifyAt_get_self {α : Type} (f : α → α) (j : Nat) (l : List α) :
    (modifyAt f j l).get? j = (l.get? j).map f := by
  induction l generalizing j with
  | nil => simp [modifyAt]
  | cons c r ih =>
    cases j with
    | zero => simp [modifyAt]
    | succ n => simpa [modifyAt] using ih n

theorem modifyAt_get_ne {α : Type} (f : α → α) {i j : Nat} (h : i ≠ j) (l : List α) :
    (modifyAt f j l).get? i = l.get? i := by
  induction l generalizing i j with
  | nil => simp [modifyAt]
  | cons c r ih =>
    cases j with
    | zero =>
      cases i with
      | zero => exact absurd rfl h
      | succ m => simp [modifyAt]
    | succ n =>
      cases i with
      | zero => simp [modifyAt]
      | succ m => simpa [modifyAt] using ih (fun hmn => h (by simp [hmn]))

theorem modifyAt_length {α : Type} (f : α → α) (j : Nat) (l : List α) :
    (modifyAt f j l).length = l.length := by
  induction l generalizing j with
  | nil => cases j <;> rfl
  | cons c r ih =>
    cases j with
    | zero => simp [modifyAt]
    | succ n => simpa [modifyAt] using ih n

theorem mapColMasked_absent {df : DataFrame} {col : String} (f : Value → Value)
    (h : col ∉ df.cols) : mapColMasked df col f = df := by
  simp [mapColMasked, findIdxEq_eq_none h]

theorem mapColAll_absent {df : DataFrame} {col : String} (f : Option Value → Option Value)
    (h : col ∉ df.cols) : mapColAll df col f = df := by
  simp [mapColAll, findIdxEq_eq_none h]

theorem mapColMasked_cols (df : DataFrame) (col : String) (f : Value → Value) :
    (mapColMasked df col f).cols = df.cols := by
  unfold mapColMasked
  cases findIdxEq df.cols col <;> rfl

theorem mapColAll_cols (df : DataFrame) (col : String) (f : Option Value → Option Value) :
    (mapColAll df col f).cols = df.cols := by
  unfold mapColAll
  cases findIdxEq df.cols col <;> rfl

theorem mapColMasked_rows_length (df : DataFrame) (col : String) (f : Value → Value) :
    (mapColMasked df col f).rows.length = df.rows.length := by
  unfold mapColMasked
  cases findIdxEq df.cols col <;> simp

theorem mapColAll_rows_length (df : DataFrame) (col : String) (f : Option Value → Option Value) :
    (mapColAll df col f).rows.length = df.rows.length := by
  unfold mapColAll
  cases findIdxEq df.cols col <;> simp

theorem getCell_mapColMasked_self (df : DataFrame) (col : String) (f : Value → Value)
    (r : Nat) :
    getCell (mapColMasked df col f) r col = (getCell df r col).map f := by
  unfold mapColMasked getCell
  cases h : findIdxEq df.cols col with
  | none => simp [h]
  | some j =>
    simp only [h]
    rw [List.get?_map]
    cases hr : df.rows.get? r with
    | none => simp
    | some row =>
      simp only [Option.map_some']
      rw [modifyAt_get_self]
      cases row.get? j <;> simp

theorem getCell_mapColMasked_ne (df : DataFrame) (col : String) (f : Value → Value)
    (r : Nat) {c : String} (h : c ≠ col) :
    getCell (mapColMasked df col f) r c = getCell df r c := by
  unfold mapColMasked getCell
  cases hcol : findIdxEq df.cols col with
  | none => simp [hcol]
  | some j =>
    simp only [hcol]
    cases hc : findIdxEq df.cols c with
    | none => simp
    | some i =>
      rw [List.get?_map]
      cases hr : df.rows.get? r with
      | none => simp
      | some row =>
        simp only [Option.map_some']
        rw [modifyAt_get_ne _ (findIdxEq_ne hc hcol h)]

theorem getCell_mapColAll_self (df : DataFrame) (col : String)
    (f : Option Value → Option Value) (r : Nat) (hf : f none = none) :
    getCell (mapColAll df col f) r col = f (getCell df r col) := by
  unfold mapColAll getCell
  cases h : findIdxEq df.cols col with
  | none => simp [h, hf]
  | some j =>
    simp only [h]
    rw [List.get?_map]
    cases hr : df.rows.get? r with
    | none => simp [hf]
    | some row =>
      simp only [Option.map_some']
      rw [modifyAt_get_self]
      cases row.get? j <;> simp [hf]

theorem getCell_mapColAll_ne (df : DataFrame) (col : String)
    (f : Option Value → Option Value) (r : Nat) {c : String} (h : c ≠ col) :
    getCell (mapColAll df col f) r c = getCell df r c := by
  unfold mapColAll getCell
  cases hcol : findIdxEq df.cols col with
  | none => simp [hcol]
  | some j =>
    simp only [hcol]
    cases hc : findIdxEq df.cols c with
    | none => simp
    | some i =>
      rw [List.get?_map]
      cases hr : df.rows.get? r with
      | none => simp
      | some row =>
        simp only [Option.map_some']
        rw [modifyAt_get_ne _ (findIdxEq_ne hc hcol h)]

theorem data_append (a b : String) : (a ++ b).data = a.data ++ b.data := rfl

theorem data_inj {a b : String} (h : a.data = b.data) : a = b := by
  cases a
  cases b
  exact congrArg String.mk h

theorem length_append' (a b : String) : (a ++ b).length = a.length + b.length := by
  cases a with
  | mk d1 =>
    cases b with
    | mk d2 => exact List.length_append d1 d2

theorem doubleQuoteWrap (s : String) :
    "\"" ++ ("\"" ++ s ++ "\"") ++ "\"" = "\"\"" ++ s ++ "\"\"" := by
  apply data_inj
  simp only [data_append]
  have h1 : ("\"" : String).data = ['"'] := rfl
  have h2 : ("\"\"" : String).data = ['"', '"'] := rfl
  simp [h1, h2]

theorem zeroPadCell_eq_claimSigned (w : Nat) (v : Value) :
    zeroPadCell w v = Value.str (claimZeroPadSigned w v.toStr) := rfl

/-! ### Lemmas about the replacement scan of the cleanup pass -/

theorem replaceGo_nil (pat rep : List Char) (fuel : Nat) :
    replaceGo pat rep fuel [] = [] := by
  cases fuel <;> rfl

theorem startsWithL_append_self (pat x : List Char) :
    startsWithL pat (pat ++ x) = true := by
  induction pat with
  | nil => rfl
  | cons a as ih => simp [startsWithL, ih]

theorem startsWithL_of_append {pat x y : List Char} (hlen : pat.length ≤ x.length)
    (h : startsWithL pat (x ++ y) = true) : startsWithL pat x = true := by
  induction pat generalizing x with
  | nil => rfl
  | cons a as ih =>
    cases x with
    | nil => simp at hlen
    | cons b bs =>
      simp only [List.cons_append, startsWithL, Bool.and_eq_true] at h ⊢
      exact ⟨h.1, ih (by simpa using hlen) h.2⟩

theorem containsL_of_startsWithL {pat s : List Char}
    (h : startsWithL pat s = true) : containsL pat s = true := by
  cases s with
  | nil => exact h
  | cons c rest => simp [containsL, h]

theorem replaceGo_fuel {pat rep : List Char} (hpat : pat ≠ []) :
    ∀ (f1 : Nat) {s : List Char} (f2 : Nat), s.length ≤ f1 → s.length ≤ f2 →
      replaceGo pat rep f1 s = replaceGo pat rep f2 s := by
  intro f1
  induction f1 with
  | zero =>
    intro s f2 h1 _
    have : s = [] := List.eq_nil_of_length_eq_zero (Nat.le_zero.mp h1)
    subst this
    rw [replaceGo_nil, replaceGo_nil]
  | succ f1 ih =>
    intro s f2 h1 h2
    cases s with
    | nil => rw [replaceGo_nil, replaceGo_nil]
    | cons c rest =>
      cases f2 with
      | zero => simp at h2
      | succ g =>
        have hp : 1 ≤ pat.length := by
          cases pat with
          | nil => exact absurd rfl hpat
          | cons p ps => simp
        simp only [replaceGo]
        by_cases hm : startsWithL pat (c :: rest) = true
        · rw [if_pos hm, if_pos hm]
          congr 1
          apply ih
          · simp only [List.length_drop, List.length_cons]
            simp only [List.length_cons] at h1
            omega
          · simp only [List.length_drop, List.length_cons]
            simp only [List.length_cons] at h2
            omega
        · rw [if_neg hm, if_neg hm]
          congr 1
          apply ih
          · simp only [List.length_cons] at h1
            omega
          · simp only [List.length_cons] at h2
            omega

theorem replaceGo_no_occ {pat rep : List Char} :
    ∀ (fuel : Nat) {s : List Char}, s.length ≤ fuel → containsL pat s = false →
      replaceGo pat rep fuel s = s := by
  intro fuel
  induction fuel with
  | zero =>
    intro s h1 _
    have : s = [] := List.eq_nil_of_length_eq_zero (Nat.le_zero.mp h1)
    subst this
    rfl
  | succ f ih =>
    intro s h1 hc
    cases s with
    | nil => rfl
    | cons c rest =>
      simp only [containsL, Bool.or_eq_false_iff] at hc
      simp only [replaceGo, hc.1, Bool.false_eq_true, if_false]
      congr 1
      apply ih _ hc.2
      simp only [List.length_cons] at h1
      omega

theorem tripleQuote_ne_nil : tripleQuote ≠ [] := by decide

theorem replaceTQ_eq (s : String) :
    find_and_replace_quotes s = (replaceTQ s.toList).asString := rfl

theorem replaceTQ_cons3 (rest : List Char) :
    replaceTQ ('"' :: '"' :: '"' :: rest) = '"' :: replaceTQ rest := by
  show '"' :: replaceGo tripleQuote ['"'] (rest.length + 2) rest = _
  congr 1
  exact replaceGo_fuel tripleQuote_ne_nil _ _ (by omega) (Nat.le_refl _)

theorem replaceTQ_cons_neg {c : Char} {rest : List Char}
    (hm : startsWithL tripleQuote (c :: rest) = false) :
    replaceTQ (c :: rest) = c :: replaceTQ rest := by
  show replaceGo tripleQuote ['"'] (rest.length + 1) (c :: rest) = _
  simp only [replaceGo, hm, Bool.false_eq_true, if_false]
  rfl

theorem replaceTQ_occurrence :
    ∀ (pre post : List Char), containsL tripleQuote (pre ++ ['"', '"']) = false →
      replaceTQ (pre ++ tripleQuote ++ post) = pre ++ '"' :: replaceTQ post := by
  intro pre
  induction pre with
  | nil =>
    intro post _
    exact replaceTQ_cons3 post
  | cons a pre' ih =>
    intro post h
    simp only [List.cons_append, containsL, Bool.or_eq_false_iff, List.append_eq] at h
    have hm : startsWithL tripleQuote (a :: (pre' ++ (tripleQuote ++ post))) = false := by
      cases hx : startsWithL tripleQuote (a :: (pre' ++ (tripleQuote ++ post))) with
      | false => rfl
      | true =>
        exfalso
        have heq : a :: (pre' ++ (tripleQuote ++ post))
            = (a :: (pre' ++ ['"', '"'])) ++ ('"' :: post) := by
          simp [tripleQuote, List.append_assoc]
        rw [heq] at hx
        have hstart := startsWithL_of_append (by simp [tripleQuote]) hx
        simp [h.1] at hstart
    calc replaceTQ ((a :: pre') ++ tripleQuote ++ post)
        = replaceTQ (a :: (pre' ++ (tripleQuote ++ post))) := by
          simp only [List.cons_append, List.append_assoc]
      _ = a :: replaceTQ (pre' ++ (tripleQuote ++ post)) := replaceTQ_cons_neg hm
      _ = a :: replaceTQ (pre' ++ tripleQuote ++ post) := by rw [List.append_assoc]
      _ = a :: (pre' ++ '"' :: replaceTQ post) := by rw [ih post h.2]
      _ = (a :: pre') ++ '"' :: replaceTQ post := rfl

/-! ### Claim theorems -/

/-- C1: for every rule of either category rule set (the masked
per-column rules QuoteWrap, CustomWrap, ZeroPad of any width,
StripSeparator, and the whole-column DateFormat rule), applying the
rule to a row-set whose column set does not contain the rule's target
column leaves the row-set completely unchanged; the rule application is
a total function, so no error can be raised. -/
theorem C1_missing_column_noop (df : DataFrame) (col : String) (w : Nat)
    (h : col ∉ df.cols) :
    mapColMasked df col quoteWrapCell = df ∧
    mapColMasked df col customWrapCell = df ∧
    mapColAll df col dateFormatCellAll = df ∧
    mapColMasked df col (zeroPadCell w) = df ∧
    mapColMasked df col stripCommaCell = df :=
  ⟨mapColMasked_absent _ h, mapColMasked_absent _ h, mapColAll_absent _ h,
   mapColMasked_absent _ h, mapColMasked_absent _ h⟩

/-- Witness for C1 at a concrete row-set lacking the column
`CITY_GATE`. -/
theorem C1_missing_column_noop_witness :
    "CITY_GATE" ∉ (⟨["A"], [[some (Value.int 3)]]⟩ : DataFrame).cols ∧
    mapColMasked ⟨["A"], [[some (Value.int 3)]]⟩ "CITY_GATE" quoteWrapCell
      = ⟨["A"], [[some (Value.int 3)]]⟩ :=
  ⟨by decide,
   (C1_missing_column_noop ⟨["A"], [[some (Value.int 3)]]⟩ "CITY_GATE" 4 (by decide)).1⟩

/-- C2: for every rule type (QuoteWrap, CustomWrap, DateFormat, ZeroPad,
StripSeparator) and every row-set, a cell that is null before the rule
is applied is still null after the rule is applied — the masked rules
rewrite only cells selected by `notna`, and date formatting maps `NaT`
to null. -/
theorem C2_null_cells_preserved (df : DataFrame) (r : Nat) (c col : String) (w : Nat)
    (h : getCell df r c = none) :
    getCell (mapColMasked df col quoteWrapCell) r c = none ∧
    getCell (mapColMasked df col customWrapCell) r c = none ∧
    getCell (mapColAll df col dateFormatCellAll) r c = none ∧
    getCell (mapColMasked df col (zeroPadCell w)) r c = none ∧
    getCell (mapColMasked df col stripCommaCell) r c = none := by
  have hmasked : ∀ f : Value → Value, getCell (mapColMasked df col f) r c = none := by
    intro f
    by_cases hc : c = col
    · subst hc
      rw [getCell_mapColMasked_self, h]
      rfl
    · rw [getCell_mapColMasked_ne _ _ _ _ hc, h]
  have hall : getCell (mapColAll df col dateFormatCellAll) r c = none := by
    by_cases hc : c = col
    · subst hc
      rw [getCell_mapColAll_self _ _ _ _ rfl, h]
      rfl
    · rw [getCell_mapColAll_ne _ _ _ _ hc, h]
  exact ⟨hmasked _, hmasked _, hall, hmasked _, hmasked _⟩

/-- Witness for C2 at a concrete row-set whose targeted cell is null. -/
theorem C2_null_cells_preserved_witness :
    getCell (⟨["CITY_GATE"], [[none]]⟩ : DataFrame) 0 "CITY_GATE" = none ∧
    getCell (mapColMasked ⟨["CITY_GATE"], [[none]]⟩ "CITY_GATE" quoteWrapCell)
      0 "CITY_GATE" = none :=
  ⟨by decide,
   (C2_null_cells_preserved ⟨["CITY_GATE"], [[none]]⟩ 0 "CITY_GATE" "CITY_GATE" 4
     (by decide)).1⟩

/-- C8: end-to-end through the Enrollment rule set, a single-row
row-set with `CUSTOMER_NAME = "Jane Doe"`, `DT_EFF = "2023-01-15"` and
the number `7` in `CITY_GATE` yields the quoted name, the unchanged
date text, and `"0007"`. -/
theorem C8_end_to_end :
    apply_enrollment_transforms
      ⟨["CUSTOMER_NAME", "DT_EFF", "CITY_GATE"],
       [[some (Value.str "Jane Doe"), some (Value.str "2023-01-15"),
         some (Value.int 7)]]⟩
    = ⟨["CUSTOMER_NAME", "DT_EFF", "CITY_GATE"],
       [[some (Value.str "\"Jane Doe\""), some (Value.str "2023-01-15"),
         some (Value.str "0007")]]⟩ := by decide

/-- C10: applying an entire category rule set (Enrollment or Usage)
preserves the shape of the row-set — exactly the same ordered column
names and exactly the same number of rows. -/
theorem C10_shape_preserved (df : DataFrame) :
    (apply_enrollment_transforms df).cols = df.cols ∧
    (apply_enrollment_transforms df).rows.length = df.rows.length ∧
    (apply_usage_transforms df).cols = df.cols ∧
    (apply_usage_transforms df).rows.length = df.rows.length := by
  refine ⟨?_, ?_, ?_, ?_⟩ <;>
    simp [apply_enrollment_transforms, apply_usage_transforms,
      mapColMasked_cols, mapColAll_cols,
      mapColMasked_rows_length, mapColAll_rows_length]

/-- C3 counterexample: on a non-null cell whose text starts with a `-`
sign, the code's zero padding (Python `zfill`) inserts the zeros after
the sign, not at the very left as the claim's wording would have it:
`"-5"` padded to width 4 yields `"-005"`, not `"00-5"`. -/
theorem C3_zeropad_counterexample :
    zeroPadCell 4 (Value.str "-5") = Value.str "-005" ∧
    claimZeroPadPlain 4 "-5" = "00-5" ∧
    zeroPadCell 4 (Value.str "-5") ≠ Value.str (claimZeroPadPlain 4 "-5") := by decide

/-- C3 (amended): for every non-null cell targeted by ZeroPad(width),
the cell's text is truncated at the first `.` and then filled with `0`
to exactly `width` characters — the zeros inserted after a leading `+`
or `-` sign and otherwise at the very left — with no truncation when the
text is already at least `width` characters long; with width 4, `"7"`
yields `"0007"`, `"12.0"` yields `"0012"`, and `"12345"` is left
unchanged. -/
theorem C3_zeropad (df : DataFrame) (col : String) (r : Nat) (v : Value) (w : Nat)
    (h : getCell df r col = some v) :
    getCell (mapColMasked df col (zeroPadCell w)) r col
      = some (Value.str (claimZeroPadSigned w v.toStr)) ∧
    zeroPadCell 4 (Value.str "7") = Value.str "0007" ∧
    zeroPadCell 4 (Value.str "12.0") = Value.str "0012" ∧
    zeroPadCell 4 (Value.str "12345") = Value.str "12345" := by
  refine ⟨?_, by decide, by decide, by decide⟩
  rw [getCell_mapColMasked_self, h]
  rw [Option.map_some', zeroPadCell_eq_claimSigned]

/-- Witness for C3 at a concrete row-set: `"12.0"` in `CITY_GATE`
becomes `"0012"`. -/
theorem C3_zeropad_witness :
    getCell (⟨["CITY_GATE"], [[some (Value.str "12.0")]]⟩ : DataFrame) 0 "CITY_GATE"
      = some (Value.str "12.0") ∧
    getCell (mapColMasked ⟨["CITY_GATE"], [[some (Value.str "12.0")]]⟩ "CITY_GATE"
      (zeroPadCell 4)) 0 "CITY_GATE" = some (Value.str "0012") :=
  ⟨by decide,
   ((C3_zeropad ⟨["CITY_GATE"], [[some (Value.str "12.0")]]⟩ "CITY_GATE" 0
      (Value.str "12.0") 4 (by decide)).1).trans (by decide)⟩

/-- C4: for every cell targeted by DateFormat, a value that parses as a
calendar date is rewritten as text in the `YYYY-MM-DD` pattern
(`"2024-3-5"` becomes `"2024-03-05"`), and an unparseable value such as
`"N/A"` becomes null in the output; the rule is a total function, so no
error is raised and no row or file fails. -/
theorem C4_dateformat (df : DataFrame) (col : String) (r : Nat) (v : Value)
    (h : getCell df r col = some v) :
    (∀ y m d, parseDate v = some (y, m, d) →
       getCell (mapColAll df col dateFormatCellAll) r col
         = some (Value.str (formatDate y m d))) ∧
    (parseDate v = none →
       getCell (mapColAll df col dateFormatCellAll) r col = none) ∧
    dateFormatCellAll (some (Value.str "2024-3-5")) = some (Value.str "2024-03-05") ∧
    dateFormatCellAll (some (Value.str "N/A")) = none := by
  have hcell := getCell_mapColAll_self df col dateFormatCellAll r rfl
  refine ⟨?_, ?_, by decide, by decide⟩
  · intro y m d hp
    rw [hcell, h]
    simp [dateFormatCellAll, hp]
  · intro hp
    rw [hcell, h]
    simp [dateFormatCellAll, hp]

/-- Witness for C4 at a concrete row-set: `"2024-3-5"` in a date column
becomes `"2024-03-05"`. -/
theorem C4_dateformat_witness :
    getCell (mapColAll ⟨["DT_EFF"], [[some (Value.str "2024-3-5")]]⟩ "DT_EFF"
      dateFormatCellAll) 0 "DT_EFF" = some (Value.str "2024-03-05") :=
  ((C4_dateformat ⟨["DT_EFF"], [[some (Value.str "2024-3-5")]]⟩ "DT_EFF" 0
      (Value.str "2024-3-5") (by decide)).1 2024 3 5 (by decide)).trans (by decide)

/-- C6: QuoteWrap is an unconditional literal concatenation — every
non-null cell value becomes its text surrounded by one double quote on
each side, a second application wraps again rather than detecting the
existing quotes, and applying it twice to `a` yields `""a""`, not `"a"`;
QuoteWrap is never idempotent on a cell. -/
theorem C6_quotewrap_literal (df : DataFrame) (col : String) (r : Nat) (v : Value)
    (h : getCell df r col = some v) :
    getCell (mapColMasked df col quoteWrapCell) r col
      = some (Value.str ("\"" ++ v.toStr ++ "\"")) ∧
    quoteWrapCell (quoteWrapCell v) = Value.str ("\"\"" ++ v.toStr ++ "\"\"") ∧
    (∀ u : Value, quoteWrapCell (quoteWrapCell u) ≠ quoteWrapCell u) ∧
    quoteWrapCell (quoteWrapCell (Value.str "a")) = Value.str "\"\"a\"\"" := by
  refine ⟨?_, ?_, ?_, by decide⟩
  · rw [getCell_mapColMasked_self, h]
    rfl
  · show Value.str ("\"" ++ ("\"" ++ v.toStr ++ "\"") ++ "\"") = _
    rw [doubleQuoteWrap]
  · intro u heq
    simp only [quoteWrapCell, Value.toStr, Value.str.injEq] at heq
    have hlen := congrArg String.length heq
    have hq : ("\"" : String).length = 1 := rfl
    simp only [length_append', hq] at hlen
    omega

/-- Witness for C6 at a concrete row-set: `"Jane"` becomes
`"\"Jane\""`. -/
theorem C6_quotewrap_literal_witness :
    getCell (mapColMasked ⟨["CUSTOMER_NAME"], [[some (Value.str "Jane")]]⟩
      "CUSTOMER_NAME" quoteWrapCell) 0 "CUSTOMER_NAME"
      = some (Value.str "\"Jane\"") :=
  ((C6_quotewrap_literal ⟨["CUSTOMER_NAME"], [[some (Value.str "Jane")]]⟩
      "CUSTOMER_NAME" 0 (Value.str "Jane") (by decide)).1).trans (by decide)

/-- C7 counterexample: the CustomWrap output for `"Acme Co"` is the
claimed five-part string `"'Acme Co'"`, but that string has 11
characters, not the 10 the claim asserts. -/
theorem C7_customwrap_counterexample :
    ¬ (customWrapCell (Value.str "Acme Co") = Value.str "\"'Acme Co'\"" ∧
       ("\"'Acme Co'\"" : String).length = 10) := by decide

/-- C7 (amended): for every non-null cell targeted by CustomWrap, the
cell value coerced to text is replaced by the five-part concatenation
double-quote, single-quote, value, single-quote, double-quote;
`"Acme Co"` yields the 11-character result `"'Acme Co'"`. -/
theorem C7_customwrap (df : DataFrame) (col : String) (r : Nat) (v : Value)
    (h : getCell df r col = some v) :
    getCell (mapColMasked df col customWrapCell) r col
      = some (Value.str ("\"'" ++ v.toStr ++ "'\"")) ∧
    customWrapCell (Value.str "Acme Co") = Value.str "\"'Acme Co'\"" ∧
    ("\"'Acme Co'\"" : String).length = 11 := by
  refine ⟨?_, by decide, by decide⟩
  rw [getCell_mapColMasked_self, h]
  rfl

/-- Witness for C7 at a concrete row-set: `"Acme Co"` in `TX_SERV_SUPP`
becomes `"'Acme Co'"`. -/
theorem C7_customwrap_witness :
    getCell (mapColMasked ⟨["TX_SERV_SUPP"], [[some (Value.str "Acme Co")]]⟩
      "TX_SERV_SUPP" customWrapCell) 0 "TX_SERV_SUPP"
      = some (Value.str "\"'Acme Co'\"") :=
  ((C7_customwrap ⟨["TX_SERV_SUPP"], [[some (Value.str "Acme Co")]]⟩
      "TX_SERV_SUPP" 0 (Value.str "Acme Co") (by decide)).1).trans (by decide)

/-- C9: category dispatch tests `enrollment` first — a file whose
lower-cased name contains `enrollment` (whether or not it also contains
`usage`) gets the Enrollment rule set, and the Usage rule set is applied
exactly when the name contains `usage` but not `enrollment`. -/
theorem C9_dispatch_order (fname : String) (df : DataFrame) :
    (containsSub (strLower fname) "enrollment" = true →
       transform_excel_data fname df = some (apply_enrollment_transforms df)) ∧
    (containsSub (strLower fname) "usage" = true →
       containsSub (strLower fname) "enrollment" = false →
       transform_excel_data fname df = some (apply_usage_transforms df)) := by
  constructor
  · intro h
    simp [transform_excel_data, h]
  · intro hu he
    simp [transform_excel_data, he, hu]

/-- Witness for C9: a name containing both keywords dispatches to
Enrollment, a name containing only `usage` dispatches to Usage. -/
theorem C9_dispatch_order_witness :
    transform_excel_data "Q1_Enrollment_Usage.xlsx" ⟨["A"], [[some (Value.int 1)]]⟩
      = some (apply_enrollment_transforms ⟨["A"], [[some (Value.int 1)]]⟩) ∧
    transform_excel_data "Q1_Usage.xlsx" ⟨["A"], [[some (Value.int 1)]]⟩
      = some (apply_usage_transforms ⟨["A"], [[some (Value.int 1)]]⟩) :=
  ⟨(C9_dispatch_order "Q1_Enrollment_Usage.xlsx" ⟨["A"], [[some (Value.int 1)]]⟩).1
     (by decide),
   (C9_dispatch_order "Q1_Usage.xlsx" ⟨["A"], [[some (Value.int 1)]]⟩).2
     (by decide) (by decide)⟩

/-- C5: the cleanup pass is a pure global text substitution replacing
every occurrence of the three-character sequence of double quotes by a
single double quote: `He said """Hi"""` yields `He said "Hi"`, the
six-quote run collapses to two quotes, text without an occurrence is
returned unchanged, and the leftmost occurrence after any
occurrence-free prefix is always replaced, the scan continuing on the
remaining text. -/
theorem C5_cleanup_substitution :
    find_and_replace_quotes "He said \"\"\"Hi\"\"\"" = "He said \"Hi\"" ∧
    find_and_replace_quotes "\"\"\"\"\"\"" = "\"\"" ∧
    (∀ s : String, containsL tripleQuote s.toList = false →
       find_and_replace_quotes s = s) ∧
    (∀ pre post : List Char, containsL tripleQuote (pre ++ ['"', '"']) = false →
       replaceTQ (pre ++ tripleQuote ++ post) = pre ++ '"' :: replaceTQ post) := by
  refine ⟨by decide, by decide, ?_, replaceTQ_occurrence⟩
  intro s hc
  show (replaceGo tripleQuote ['"'] s.toList.length s.toList).asString = s
  rw [replaceGo_no_occ _ (Nat.le_refl _) hc]
  exact String.asString_toList s

/-- Witness for C5: occurrence-free text is unchanged, and a leftmost
occurrence after the occurrence-free prefix `a` is replaced. -/
theorem C5_cleanup_substitution_witness :
    (containsL tripleQuote ("abc" : String).toList = false ∧
       find_and_replace_quotes "abc" = "abc") ∧
    (containsL tripleQuote (['a'] ++ ['"', '"']) = false ∧
       replaceTQ (['a'] ++ tripleQuote ++ ['b']) = ['a'] ++ '"' :: replaceTQ ['b']) :=
  ⟨⟨by decide, C5_cleanup_substitution.2.2.1 "abc" (by decide)⟩,
   ⟨by decide, C5_cleanup_substitution.2.2.2 ['a'] ['b'] (by decide)⟩⟩

end FileTransformer
